import Mathlib

/-!
Verification of the Browserbase functions dev-server core: the invocation
bridge (`src/cli/dev/bridge.ts`), the dev-server request handlers
(`DevServerHandlers`), the HTTP router (`handleRequest` in
`src/cli/dev/server.ts`), the environment selector (`src/utils/env.ts`),
the manifest emitter (`src/define/helpers.ts` / `defineFn`), the function
registry (`src/runtime/registry.ts`) and the runtime-side error
normalisation (`formatRuntimeError` in `src/runtime/index.ts`).

JavaScript runtime values are embedded as the inductive `JSValue`;
`JSON.stringify` is embedded as `jsonStringify` (undefined-valued object
fields and a bare top-level undefined are never serialised on the
modelled code paths, so their rendering is irrelevant to the theorems).
Held HTTP responses are identified by numeric connection ids; writing a
response is an explicit `WriteEffect`.  `crypto.randomUUID()` and
`Date.now()` are modelled as oracle inputs supplied to each operation.
-/

/-- Embedded JavaScript runtime values.  `errObj` models an `Error`
instance (the `instanceof Error` branch of the source): its `message` and
`name` are strings, its `stack` is an optional string, matching the shape
the JS runtime gives every `Error`. -/
inductive JSValue where
  | null
  | undefined
  | bool (b : Bool)
  | num (n : Int)
  | str (s : String)
  | arr (elems : List JSValue)
  | obj (fields : List (String × JSValue))
  | errObj (message : String) (name : String) (stack : Option String)
deriving Repr

/-- Escape one character the way `JSON.stringify` renders it inside a
string literal (only the escapes exercised by the modelled code paths). -/
def escapeJsonChar (c : Char) : String :=
  if c = Char.ofNat 34 then "\\\""
  else if c = Char.ofNat 92 then "\\\\"
  else if c = Char.ofNat 10 then "\\n"
  else if c = Char.ofNat 13 then "\\r"
  else if c = Char.ofNat 9 then "\\t"
  else String.singleton c

/-- Escape a whole string for inclusion in a JSON string literal. -/
def escapeJsonString (s : String) : String :=
  s.data.foldl (fun acc c => acc ++ escapeJsonChar c) ""

mutual

/-- Embedding of `JSON.stringify` on `JSValue`. -/
def jsonStringify : JSValue → String
  | .null => "null"
  | .undefined => "null"
  | .bool true => "true"
  | .bool false => "false"
  | .num n => toString n
  | .str s => "\"" ++ escapeJsonString s ++ "\""
  | .arr xs => "[" ++ jsonStringifyElems xs ++ "]"
  | .obj fs => "\x7b" ++ jsonStringifyFields fs ++ "\x7d"
  | .errObj _ _ _ => "\x7b\x7d"

/-- Render the comma-separated elements of a JSON array. -/
def jsonStringifyElems : List JSValue → String
  | [] => ""
  | [x] => jsonStringify x
  | x :: y :: xs => jsonStringify x ++ "," ++ jsonStringifyElems (y :: xs)

/-- Render the comma-separated fields of a JSON object. -/
def jsonStringifyFields : List (String × JSValue) → String
  | [] => ""
  | [(k, v)] => "\"" ++ escapeJsonString k ++ "\":" ++ jsonStringify v
  | (k, v) :: f :: fs =>
      "\"" ++ escapeJsonString k ++ "\":" ++ jsonStringify v ++ ","
        ++ jsonStringifyFields (f :: fs)

end

/-- Check whether the first list of characters is an initial segment of
the second. -/
def startsWithChars : List Char → List Char → Bool
  | [], _ => true
  | _ :: _, [] => false
  | p :: ps, c :: cs => p = c && startsWithChars ps cs

/-- Split a character list on a non-empty separator `sep1 :: sepRest`,
JS `String.prototype.split` style.  Structural recursion on a fuel that
always suffices, so the definition evaluates by `rfl`. -/
def splitCharsFuel : Nat → Char → List Char → List Char → List Char → List (List Char)
  | 0, _, _, rest, acc => [acc.reverse ++ rest]
  | _ + 1, _, _, [], acc => [acc.reverse]
  | fuel + 1, sep1, sepRest, c :: cs, acc =>
      if c = sep1 && startsWithChars sepRest cs then
        acc.reverse :: splitCharsFuel fuel sep1 sepRest (cs.drop sepRest.length) []
      else
        splitCharsFuel fuel sep1 sepRest cs (c :: acc)

/-- JS `s.split(sep)` for a non-empty separator; equal to
`String.splitOn` on the separators the embedding uses ("/" for paths,
the literal "/n" in the error formatter), but kernel-computable. -/
def jsSplitOn (s sep : String) : List String :=
  match sep.data with
  | [] => [s]
  | c :: cs => (splitCharsFuel (s.data.length + 1) c cs s.data []).map String.mk

/-- First-match field lookup on an embedded JS object literal. -/
def lookupField : List (String × JSValue) → String → Option JSValue
  | [], _ => none
  | (k, v) :: fs, key => if k = key then some v else lookupField fs key

/-- Property read `v[key]`, defined (as the source needs it) only for
plain objects; every other value yields no own property. -/
def getProp (v : JSValue) (key : String) : Option JSValue :=
  match v with
  | .obj fs => lookupField fs key
  | _ => none

/-- Update the fields of a JS object literal for `obj[key] = value`:
replace the existing key in place, otherwise append. -/
def setFieldList : List (String × JSValue) → String → JSValue → List (String × JSValue)
  | [], k, v => [(k, v)]
  | (k1, v1) :: fs, k, v =>
      if k1 = k then (k1, v) :: fs else (k1, v1) :: setFieldList fs k v

/-- Property assignment `v[key] = value`; on non-objects it is a no-op
(matching sloppy-mode JS, and unreachable on the modelled paths). -/
def setField (v : JSValue) (key : String) (value : JSValue) : JSValue :=
  match v with
  | .obj fs => .obj (setFieldList fs key value)
  | w => w

/-- Embedding of the nullish coalescing `result ?? \x7b\x7d` used by
`completeWithSuccess`. -/
def nullishCoalesceEmptyObj : JSValue → JSValue
  | .null => .obj []
  | .undefined => .obj []
  | v => v

/-! ## Invocation bridge (`src/cli/dev/bridge.ts`, `InvocationBridge`) -/

/-- HeldConnection from the source: an open HTTP response (identified
here by a numeric connection id) plus the `Date.now()` timestamp. -/
structure HeldConnection where
  conn : Nat
  timestamp : Int
deriving Repr, DecidableEq

/-- One completed write of an HTTP response: `writeHead(status, headers)`
followed by `end(body)`. -/
structure WriteEffect where
  conn : Nat
  status : Nat
  headers : List (String × String)
  body : String
deriving Repr, DecidableEq

/-- Header list `\x7b "Content-Type": "application/json" \x7d`. -/
def contentTypeJson : List (String × String) := [("Content-Type", "application/json")]

/-- Mutable state of `InvocationBridge`. -/
structure BridgeState where
  nextConnection : Option HeldConnection
  invokeConnection : Option HeldConnection
  currentRequestId : Option String
  currentFunctionName : Option String
  runtimeConnectedOnce : Bool
deriving Repr, DecidableEq

/-- Bridge state at construction. -/
def initialBridge : BridgeState :=
  { nextConnection := none, invokeConnection := none, currentRequestId := none,
    currentFunctionName := none, runtimeConnectedOnce := false }

/-- InvocationBridge.holdNextConnection: if a next connection is already
held, close the old one with 503 and take its place; mark the runtime as
having connected once. -/
def holdNextConnection (s : BridgeState) (conn : Nat) (now : Int) :
    BridgeState × List WriteEffect :=
  let effs : List WriteEffect :=
    match s.nextConnection with
    | some old =>
        [⟨old.conn, 503, contentTypeJson,
          jsonStringify (.obj [("error", .str "Another runtime connected")])⟩]
    | none => []
  ({ s with nextConnection := some ⟨conn, now⟩, runtimeConnectedOnce := true }, effs)

/-- Synthetic function ARN written into the Lambda runtime headers. -/
def invokedFunctionArn (functionName : String) : String :=
  "arn:aws:lambda:us-east-1:000000000000:function:" ++ functionName

/-- InvocationBridge.triggerInvocation: requires a held next connection
and no active invocation; on success records the fresh request id,
function name and invoke connection, completes the held next connection
with the invocation payload and Lambda runtime headers, and clears
`nextConnection`.  `freshRequestId` is the value produced by
`randomUUID()`, `now` the value of `Date.now()`. -/
def triggerInvocation (s : BridgeState) (functionName : String) (params : JSValue)
    (context : JSValue) (invokeConn : Nat) (freshRequestId : String) (now : Int) :
    BridgeState × Bool × List WriteEffect :=
  match s.nextConnection with
  | none => (s, false, [])
  | some nextConn =>
    match s.invokeConnection with
    | some _ => (s, false, [])
    | none =>
      let payload : JSValue :=
        .obj [("functionName", .str functionName), ("params", params),
              ("context", context)]
      let headers : List (String × String) :=
        contentTypeJson ++
          [("Lambda-Runtime-Aws-Request-Id", freshRequestId),
           ("Lambda-Runtime-Deadline-Ms", toString (now + 300000)),
           ("Lambda-Runtime-Invoked-Function-Arn", invokedFunctionArn functionName)]
      ({ s with currentRequestId := some freshRequestId,
                currentFunctionName := some functionName,
                invokeConnection := some ⟨invokeConn, now⟩,
                nextConnection := none },
       true,
       [⟨nextConn.conn, 200, headers, jsonStringify payload⟩])

/-- InvocationBridge.completeWithSuccess: rejects a request id that does
not match `currentRequestId` or the absence of an active invocation;
otherwise writes 200 with `JSON.stringify(result ?? \x7b\x7d)` to the
held invoke connection and clears the invocation state. -/
def completeWithSuccess (s : BridgeState) (requestId : String) (result : JSValue) :
    BridgeState × Bool × List WriteEffect :=
  if s.currentRequestId ≠ some requestId then (s, false, [])
  else
    match s.invokeConnection with
    | none => (s, false, [])
    | some ic =>
      ({ s with invokeConnection := none, currentRequestId := none,
                currentFunctionName := none },
       true,
       [⟨ic.conn, 200, contentTypeJson,
         jsonStringify (nullishCoalesceEmptyObj result)⟩])

/-- RuntimeError in the shape the dev server forwards to the bridge
(already validated against the `RuntimeError` zod schema). -/
structure RuntimeError where
  errorMessage : String
  errorType : String
  stackTrace : List String
deriving Repr, DecidableEq

/-- JSON body the bridge writes to the caller on a failed invocation. -/
def runtimeErrorBody (e : RuntimeError) : JSValue :=
  .obj [("error",
    .obj [("message", .str e.errorMessage), ("type", .str e.errorType),
          ("stackTrace", .arr (e.stackTrace.map JSValue.str))])]

/-- InvocationBridge.completeWithError: as `completeWithSuccess` but the
held caller response is completed with status 500 and the structured
error body. -/
def completeWithError (s : BridgeState) (requestId : String) (error : RuntimeError) :
    BridgeState × Bool × List WriteEffect :=
  if s.currentRequestId ≠ some requestId then (s, false, [])
  else
    match s.invokeConnection with
    | none => (s, false, [])
    | some ic =>
      ({ s with invokeConnection := none, currentRequestId := none,
                currentFunctionName := none },
       true,
       [⟨ic.conn, 500, contentTypeJson, jsonStringify (runtimeErrorBody error)⟩])

/-- InvocationBridge.hasActiveInvocation. -/
def hasActiveInvocation (s : BridgeState) : Bool :=
  s.invokeConnection.isSome

/-- InvocationBridge.isReady. -/
def isReady (s : BridgeState) : Bool :=
  s.nextConnection.isSome && s.invokeConnection.isNone

/-! ## Dev-server request handlers (`DevServerHandlers`) -/

/-- Body built by `responseBuilder.sendError("Bad Request", 400, message)`
(the `details` argument is absent on the modelled paths). -/
def badRequestBody (message : String) : String :=
  jsonStringify (.obj [("error", .str "Bad Request"), ("message", .str message)])

/-- Body built by `responseBuilder.sendServiceUnavailable`. -/
def serviceUnavailableBody (message : String) : String :=
  jsonStringify (.obj [("error", .str "Service Unavailable"), ("message", .str message)])

/-- Body built by `responseBuilder.sendNotFound`. -/
def notFoundBody (message : String) : String :=
  jsonStringify (.obj [("error", .str "Not Found"), ("message", .str message)])

/-- Body built by `responseBuilder.sendInternalError(res, message, details)`
with a string detail. -/
def internalErrorBody (message details : String) : String :=
  jsonStringify (.obj [("error", .str "Internal Server Error"),
                       ("message", .str message), ("details", .str details)])

/-- Body built by `responseBuilder.sendAccepted(res)` with no data. -/
def acceptedBody : String :=
  jsonStringify (.obj [("status", .str "accepted")])

/-- DevServerHandlers.handleInvocationResponse on an already-parsed JSON
body: forward to `completeWithSuccess`; acknowledge 202 on success,
answer 400 Bad Request on mismatch.  `resConn` is the runtime's own
response connection. -/
def handleInvocationResponse (s : BridgeState) (resConn : Nat) (requestId : String)
    (body : JSValue) : BridgeState × List WriteEffect :=
  let r := completeWithSuccess s requestId body
  if r.2.1 then
    (r.1, r.2.2 ++ [⟨resConn, 202, contentTypeJson, acceptedBody⟩])
  else
    (r.1, r.2.2 ++ [⟨resConn, 400, contentTypeJson,
      badRequestBody "No matching invocation or request ID mismatch"⟩])

/-- DevServerHandlers.handleInvocationError on a body already validated
against the `RuntimeError` schema: forward to `completeWithError`;
acknowledge 202 on success, answer 400 Bad Request on mismatch. -/
def handleInvocationError (s : BridgeState) (resConn : Nat) (requestId : String)
    (error : RuntimeError) : BridgeState × List WriteEffect :=
  let r := completeWithError s requestId error
  if r.2.1 then
    (r.1, r.2.2 ++ [⟨resConn, 202, contentTypeJson, acceptedBody⟩])
  else
    (r.1, r.2.2 ++ [⟨resConn, 400, contentTypeJson,
      badRequestBody "No matching invocation or request ID mismatch"⟩])

/-! ## HTTP router (`handleRequest` in `src/cli/dev/server.ts`) -/

/-- Dispatch decision taken by `handleRequest` for one request. -/
inductive RouteAction where
  | corsPreflight
  | invocationNext
  | functionInvoke (name : String)
  | invocationResponse (requestId : String)
  | invocationError (requestId : String)
  | notFound
deriving Repr, DecidableEq

/-- Match the regex `/^\/v1\/functions\/([^/]+)\/invoke$/`: the path has
exactly the five segments produced by that shape and a non-empty name. -/
def matchInvokePath (path : String) : Option String :=
  match jsSplitOn path "/" with
  | ["", "v1", "functions", name, "invoke"] => if name = "" then none else some name
  | _ => none

/-- Match `/^\/2018-06-01\/runtime\/invocation\/([^/]+)\/response$/`. -/
def matchResponsePath (path : String) : Option String :=
  match jsSplitOn path "/" with
  | ["", "2018-06-01", "runtime", "invocation", rid, "response"] =>
      if rid = "" then none else some rid
  | _ => none

/-- Match `/^\/2018-06-01\/runtime\/invocation\/([^/]+)\/error$/`. -/
def matchErrorPath (path : String) : Option String :=
  match jsSplitOn path "/" with
  | ["", "2018-06-01", "runtime", "invocation", rid, "error"] =>
      if rid = "" then none else some rid
  | _ => none

/-- Routing logic of `handleRequest`: OPTIONS preflight, the runtime
next/response/error endpoints, the external invoke endpoint, else 404.
There is no route for the path "/". -/
def routeRequest (method path : String) : RouteAction :=
  if method = "OPTIONS" then .corsPreflight
  else if method = "GET" ∧ path = "/2018-06-01/runtime/invocation/next" then
    .invocationNext
  else if method = "POST" then
    match matchInvokePath path with
    | some name => .functionInvoke name
    | none =>
      match matchResponsePath path with
      | some rid => .invocationResponse rid
      | none =>
        match matchErrorPath path with
        | some rid => .invocationError rid
        | none => .notFound
  else .notFound

/-- Response `handleRequest` writes itself (before dispatching to the
injected handlers): 200 empty for preflight, 404 for unknown routes,
nothing (handled elsewhere) for the dispatched routes. -/
def handleRequestDirectWrite (method path : String) (conn : Nat) : Option WriteEffect :=
  match routeRequest method path with
  | .corsPreflight => some ⟨conn, 200, [], ""⟩
  | .notFound =>
      some ⟨conn, 404, contentTypeJson,
        jsonStringify (.obj [("error", .str "Not found")])⟩
  | _ => none

/-! ## Environment selector (`EnvironmentManager` in `src/utils/env.ts`) -/

/-- Values snapshot by the `EnvironmentManager` constructor. -/
structure EnvironmentManager where
  environment : String
  runtimeApi : String
  phase : String
deriving Repr, DecidableEq

/-- Source helper `getOrDefault`: a missing key or a falsy (empty) value
yields the default. -/
def getOrDefault (env : String → Option String) (key dflt : String) : String :=
  match env key with
  | none => dflt
  | some v => if v = "" then dflt else v

/-- EnvironmentManager constructor: snapshot `NODE_ENV`,
`AWS_LAMBDA_RUNTIME_API` and `BB_FUNCTIONS_PHASE` with the defaults
written in the source. -/
def mkEnvironmentManager (processEnv : String → Option String) : EnvironmentManager :=
  { environment := getOrDefault processEnv "NODE_ENV" "local",
    runtimeApi := getOrDefault processEnv "AWS_LAMBDA_RUNTIME_API" "127.0.0.1:9001",
    phase := getOrDefault processEnv "BB_FUNCTIONS_PHASE" "runtime" }

/-- Process environment with none of the recognised variables set. -/
def emptyProcessEnv : String → Option String := fun _ => none

/-! ## Runtime error normalisation (`formatRuntimeError` in `src/runtime/index.ts`) -/

/-- Runtime value of `String(x)` for the primitives that can reach the
`String(error)` branch of `formatRuntimeError` (objects and arrays take
the object branch, strings the string branch). -/
def jsToString : JSValue → String
  | .null => "null"
  | .undefined => "undefined"
  | .bool true => "true"
  | .bool false => "false"
  | .num n => toString n
  | .str s => s
  | .arr _ => ""
  | .obj _ => "[object Object]"
  | .errObj m _ _ => m

/-- Shape `formatRuntimeError` actually returns at runtime: the
`stackTrace` of the duck-typed object branch is the raw `stack` array,
whatever its elements are. -/
structure RuntimeErrorValue where
  errorMessage : String
  errorType : String
  stackTrace : List JSValue
deriving Repr

/-- Embedding of `formatRuntimeError`.  The `instanceof Error` branch
uses `message`, `name` and `error.stack?.split("/n") ?? []` — a split on
the literal two-character sequence `/n`.  A thrown string keeps itself as
the message; other non-objects go through `String(error)`; duck-typed
objects use their string `message` and `name` when present and adopt a
`stack` array whose first element is a string. -/
def formatRuntimeError (error : JSValue) : RuntimeErrorValue :=
  match error with
  | .errObj message name stack =>
      { errorMessage := message, errorType := name,
        stackTrace :=
          match stack with
          | some s => (jsSplitOn s "/n").map JSValue.str
          | none => [] }
  | .str s => { errorMessage := s, errorType := "UnknownError", stackTrace := [] }
  | .obj fs =>
      let message :=
        match lookupField fs "message" with
        | some (.str m) => m
        | _ => "An unknown error occurred"
      let etype :=
        match lookupField fs "name" with
        | some (.str n) => n
        | _ => "UnknownError"
      let stack :=
        match lookupField fs "stack" with
        | some (.arr (x :: xs)) =>
            match x with
            | .str _ => x :: xs
            | _ => []
        | _ => []
      { errorMessage := message, errorType := etype, stackTrace := stack }
  | .arr _ =>
      { errorMessage := "An unknown error occurred", errorType := "UnknownError",
        stackTrace := [] }
  | v =>
      { errorMessage := jsToString v, errorType := "UnknownError", stackTrace := [] }

/-! ## Function registry (`src/runtime/registry.ts`, `FunctionRegistry`) -/

/-- Outcome of one user handler call: a resolved value or a thrown value. -/
inductive HandlerOutcome where
  | ok (v : JSValue)
  | thrown (e : JSValue)

/-- A user handler `(context, params) => result`. -/
abbrev HandlerFn : Type := JSValue → JSValue → HandlerOutcome

/-- A zod parameters schema as user code supplies it: whether it is a
`ZodObject`, the JSON Schema `z.toJSONSchema` renders for it, and its
validation predicate.  The modelled runtime code never consults
`validate`. -/
structure ZodSchema where
  isZodObject : Bool
  rendered : JSValue
  validate : JSValue → Bool

/-- FunctionConfiguration from `src/types/definition.ts`. -/
structure FunctionConfiguration where
  parametersSchema : Option ZodSchema := none
  sessionConfig : Option JSValue := none

/-- FunctionManifest held in the registry: name, handler and config. -/
structure FunctionManifest where
  name : String
  handler : HandlerFn
  config : FunctionConfiguration

/-- First-match lookup in an association list used as a string-keyed map. -/
def mapGet {α : Type} : List (String × α) → String → Option α
  | [], _ => none
  | (k, v) :: m, key => if k = key then some v else mapGet m key

/-- Update of a string-keyed map with `Map.set` semantics: replace the
existing key in place, otherwise append; keys stay unique. -/
def mapSet {α : Type} : List (String × α) → String → α → List (String × α)
  | [], k, v => [(k, v)]
  | (k1, v1) :: m, k, v =>
      if k1 = k then (k1, v) :: m else (k1, v1) :: mapSet m k v

/-- In-memory `_functions` map of `FunctionRegistry`. -/
abbrev FunctionRegistryState : Type := List (String × FunctionManifest)

/-- FunctionRegistry.register: insert or replace by name. -/
def registryRegister (r : FunctionRegistryState) (name : String) (handler : HandlerFn)
    (config : FunctionConfiguration) : FunctionRegistryState :=
  mapSet r name ⟨name, handler, config⟩

/-- FunctionRegistry.getByName: exact, case-sensitive lookup. -/
def registryGetByName (r : FunctionRegistryState) (name : String) :
    Option FunctionManifest :=
  mapGet r name

/-- FunctionRegistry.size: `Map.size`, the number of distinct names. -/
def registrySize (r : FunctionRegistryState) : Nat :=
  r.length

/-- Result of `FunctionRegistry.execute`: the thrown
`FunctionNotFoundInRegistryError`, a value thrown by the handler, or the
handler's resolved result. -/
inductive ExecResult where
  | notFoundErr
  | thrown (e : JSValue)
  | ok (v : JSValue)

/-- FunctionRegistry.execute: look the manifest up by name and invoke its
handler with `(context, params)`.  The source performs no parameter
validation; `config.parametersSchema` is never consulted. -/
def registryExecute (r : FunctionRegistryState) (name : String) (params : JSValue)
    (context : JSValue) : ExecResult :=
  match mapGet r name with
  | none => .notFoundErr
  | some foundDefinition =>
      match foundDefinition.handler context params with
      | .ok v => .ok v
      | .thrown e => .thrown e

/-! ## Manifest emitter (`src/define/helpers.ts` and `defineFn`) -/

/-- Config part of a persisted manifest (handler stripped, schema rendered). -/
structure PersistedConfig where
  sessionConfig : Option JSValue
  parametersSchema : Option JSValue

/-- PersistedFunctionManifest: what `writeManifestToDisk` serialises into
`\x7bmanifestsDir\x7d/\x7bname\x7d.json`.  The directory is modelled as a
map from file name to the parsed manifest it contains. -/
structure PersistedFunctionManifest where
  name : String
  config : PersistedConfig

/-- Source `buildPersistedJsonSchema`: render a `ZodObject` through
`z.toJSONSchema`, anything else becomes the empty object. -/
def buildPersistedJsonSchema (input : ZodSchema) : JSValue :=
  if input.isZodObject then input.rendered else .obj []

/-- Source `buildPersistedFunctionManifest`: keep the name, strip the
handler, keep the config fields other than `parametersSchema` and render
the schema when present. -/
def buildPersistedFunctionManifest (manifest : FunctionManifest) :
    PersistedFunctionManifest :=
  { name := manifest.name,
    config := { sessionConfig := manifest.config.sessionConfig,
                parametersSchema :=
                  manifest.config.parametersSchema.map buildPersistedJsonSchema } }

/-- Contents of `manifestsDir`, file name to parsed manifest. -/
abbrev ManifestDir : Type := String → Option PersistedFunctionManifest

/-- File name `\x7bname\x7d.json` of a manifest. -/
def manifestFileName (name : String) : String :=
  name ++ ".json"

/-- Source `writeManifestToDisk`: on the first invocation remove the
whole directory recursively and recreate it, then (in every case) write
this manifest's own `\x7bname\x7d.json`. -/
def writeManifestToDisk (manifest : FunctionManifest) (dir : ManifestDir)
    (isFirstInvocation : Bool) : ManifestDir :=
  let base : ManifestDir := if isFirstInvocation then (fun _ => none) else dir
  fun f =>
    if f = manifestFileName manifest.name then
      some (buildPersistedFunctionManifest manifest)
    else base f

/-- Process-wide state mutated by `defineFn` during the introspect phase:
the singleton `functionsRegistry` and the manifests directory. -/
structure IntrospectState where
  registry : FunctionRegistryState
  manifestsDir : ManifestDir

/-- Source `defineFn` in the introspect phase (`environmentManager.phase
= "introspect"`): register the function, then write its manifest; the
first write of the run is detected by `functionsRegistry.size === 1`
after the registration. -/
def defineFn (s : IntrospectState) (name : String) (handler : HandlerFn)
    (config : FunctionConfiguration) : IntrospectState :=
  let registry := registryRegister s.registry name handler config
  let isFirstInvocation := registrySize registry == 1
  { registry := registry,
    manifestsDir :=
      writeManifestToDisk ⟨name, handler, config⟩ s.manifestsDir isFirstInvocation }

/-- Arguments of one `defineFn` call. -/
structure DefineCall where
  name : String
  handler : HandlerFn
  config : FunctionConfiguration

/-- Run a sequence of `defineFn` calls in the introspect phase. -/
def introspectRun (s : IntrospectState) (calls : List DefineCall) : IntrospectState :=
  calls.foldl (fun st c => defineFn st c.name c.handler c.config) s

/-- State at the start of a process run: empty registry, whatever stale
files the manifests directory still holds. -/
def startIntrospect (dir : ManifestDir) : IntrospectState :=
  { registry := [], manifestsDir := dir }

/-! ## Dev-server session lifecycle (`DevServerHandlers.handleFunctionInvoke`) -/

/-- Session returned by `RemoteBrowserManager.createSession`. -/
structure SessionInfo where
  id : String
  connectUrl : String
deriving Repr, DecidableEq

/-- JS object the handler passes around for a session. -/
def sessionToJS (sess : SessionInfo) : JSValue :=
  .obj [("id", .str sess.id), ("connectUrl", .str sess.connectUrl)]

/-- External stimuli of the dev server that touch the bridge or the
session lifecycle.  Oracle values (the outcome of
`browserManager.createSession`, `randomUUID()`, `Date.now()`) travel
inside the event.  The two `Closed` events model a client disconnect of
a held connection. -/
inductive DevEvent where
  | runtimeNext (conn : Nat) (now : Int)
  | nextConnectionClosed
  | functionInvoke (conn : Nat) (functionName : String) (params : JSValue)
      (contextBody : Option JSValue) (sessionResult : Except String SessionInfo)
      (freshRequestId : String) (freshContextId : String) (now : Int)
  | invokeConnectionClosed
  | runtimeResponse (conn : Nat) (requestId : String) (body : JSValue)
  | runtimeErrorPost (conn : Nat) (requestId : String) (error : RuntimeError)

/-- Dev-server state: the bridge plus the session ledger.
`createdSessions` lists every session id `createSession` returned on the
external invoke path, `releasedSessions` every id passed to
`closeSession`, and `activeSession` the session tied to the invocation
currently in flight. -/
structure DevState where
  bridge : BridgeState
  createdSessions : List String
  releasedSessions : List String
  activeSession : Option String

/-- Dev-server state at startup. -/
def initialDevState : DevState :=
  { bridge := initialBridge, createdSessions := [], releasedSessions := [],
    activeSession := none }

/-- Modelled from the spec: the completion hook that releases the active
invocation's browser session.  `DevServerHandlers` registers
`cleanupSession` on the bridge via `setSessionCleanupCallback`, but the
current `src/cli/dev/bridge.ts` that invokes that callback when the
invocation terminates is not among the sources (only its interface,
tests and callers are); spec sections 4.6 (step 6) and 5 state that the
session is released when the held caller response is completed and when
the caller connection closes prematurely. -/
def releaseActiveSession (s : DevState) : DevState :=
  { s with releasedSessions := s.releasedSessions ++ s.activeSession.toList,
           activeSession := none }

/-- One dev-server step.  `store` is the manifest store
(`manifestStore.getManifest`).  The invoke path follows
`DevServerHandlers.handleFunctionInvoke`: manifest lookup (404), session
creation (500 on failure, ledger entry on success), context build with
`context.session = session` forced, `bridge.triggerInvocation`, and on
trigger failure `cleanupSession` plus 503.  The response/error paths
follow `handleInvocationResponse` / `handleInvocationError`; the release
of the active session on completion and on caller disconnect comes from
`releaseActiveSession` (spec-modelled), and a closed next connection is
cleared silently (spec section 5). -/
def devStep (store : String → Option PersistedFunctionManifest) (s : DevState) :
    DevEvent → DevState × List WriteEffect
  | .runtimeNext conn now =>
      let r := holdNextConnection s.bridge conn now
      ({ s with bridge := r.1 }, r.2)
  | .nextConnectionClosed =>
      ({ s with bridge := { s.bridge with nextConnection := none } }, [])
  | .functionInvoke conn functionName params contextBody sessionResult
      freshRequestId freshContextId now =>
    match store functionName with
    | none =>
        (s, [⟨conn, 404, contentTypeJson,
          notFoundBody ("Function \"" ++ functionName
            ++ "\" not found in registry. Make sure it is defined with defineFn() in your entrypoint file.")⟩])
    | some _ =>
      match sessionResult with
      | .error msg =>
          (s, [⟨conn, 500, contentTypeJson,
            internalErrorBody "Failed to create browser session" msg⟩])
      | .ok sess =>
        let createdSessions := s.createdSessions ++ [sess.id]
        let baseContext : JSValue :=
          match contextBody with
          | some c => c
          | none =>
              .obj [("invocation",
                      .obj [("id", .str freshContextId), ("region", .str "local")]),
                    ("session", sessionToJS sess)]
        let context := setField baseContext "session" (sessionToJS sess)
        let r := triggerInvocation s.bridge functionName params context conn
          freshRequestId now
        if r.2.1 then
          ({ bridge := r.1, createdSessions := createdSessions,
             releasedSessions := s.releasedSessions,
             activeSession := some sess.id }, r.2.2)
        else
          let message :=
            if hasActiveInvocation r.1 then "Another invocation is in progress"
            else "No runtime connected"
          ({ bridge := r.1, createdSessions := createdSessions,
             releasedSessions := s.releasedSessions ++ [sess.id],
             activeSession := s.activeSession },
           r.2.2 ++ [⟨conn, 503, contentTypeJson, serviceUnavailableBody message⟩])
  | .invokeConnectionClosed =>
      match s.bridge.invokeConnection with
      | some _ =>
          let clearedBridge : BridgeState :=
            { s.bridge with
                invokeConnection := none, currentRequestId := none,
                currentFunctionName := none }
          (releaseActiveSession { s with bridge := clearedBridge }, [])
      | none => (s, [])
  | .runtimeResponse conn requestId body =>
      let r := completeWithSuccess s.bridge requestId body
      if r.2.1 then
        (releaseActiveSession { s with bridge := r.1 },
         r.2.2 ++ [⟨conn, 202, contentTypeJson, acceptedBody⟩])
      else
        ({ s with bridge := r.1 },
         r.2.2 ++ [⟨conn, 400, contentTypeJson,
           badRequestBody "No matching invocation or request ID mismatch"⟩])
  | .runtimeErrorPost conn requestId error =>
      let r := completeWithError s.bridge requestId error
      if r.2.1 then
        (releaseActiveSession { s with bridge := r.1 },
         r.2.2 ++ [⟨conn, 202, contentTypeJson, acceptedBody⟩])
      else
        ({ s with bridge := r.1 },
         r.2.2 ++ [⟨conn, 400, contentTypeJson,
           badRequestBody "No matching invocation or request ID mismatch"⟩])

/-- Run the dev server over a list of events, discarding the writes. -/
def devRun (store : String → Option PersistedFunctionManifest) (s : DevState)
    (events : List DevEvent) : DevState :=
  events.foldl (fun st e => (devStep store st e).1) s

/-- Per-session accounting: every created session id is matched by
exactly one release plus possibly the one invocation still in flight. -/
abbrev sessionAccounting (s : DevState) : Prop :=
  ∀ sid, s.createdSessions.count sid
    = s.releasedSessions.count sid + s.activeSession.toList.count sid

/-- Induction invariant for the session lifecycle: the accounting
equation plus the tie between the session ledger and the bridge. -/
abbrev devInvariant (s : DevState) : Prop :=
  sessionAccounting s ∧ (s.activeSession.isSome ↔ s.bridge.invokeConnection.isSome)

/-! ## Invariants and concrete fixtures used by the theorems -/

/-- Every file present in the manifests directory belongs to a name in
the registry. -/
abbrev introspectDomOk (st : IntrospectState) : Prop :=
  ∀ f, (st.manifestsDir f).isSome → ∃ p ∈ st.registry, f = manifestFileName p.1

/-- Induction invariant for an introspect run: non-empty registry and
directory dominated by the registry keys. -/
abbrev introspectInv (st : IntrospectState) : Prop :=
  st.registry ≠ [] ∧ introspectDomOk st

/-- Handler fixture used by concrete witnesses. -/
def sampleHandler : HandlerFn := fun _ _ => .ok .null

/-- Call fixture used by concrete witnesses. -/
def sampleCall (name : String) : DefineCall :=
  ⟨name, sampleHandler, {}⟩

/-- Manifests directory that still contains a stale file from an earlier
process run. -/
def staleDir : ManifestDir :=
  fun f => if f = "stale.json" then some ⟨"stale", ⟨none, none⟩⟩ else none

/-- Manifest store fixture with a single function "echo". -/
def echoStore : String → Option PersistedFunctionManifest :=
  fun n => if n = "echo" then some ⟨"echo", ⟨none, none⟩⟩ else none

/-- Trace fixture: runtime connects, "echo" is invoked with a fresh
session, the runtime posts the matching response. -/
def happyTrace : List DevEvent :=
  [.runtimeNext 1 10,
   .functionInvoke 2 "echo" (.obj []) none (.ok ⟨"sess-1", "ws://x"⟩) "rid-1" "ctx-1" 20,
   .runtimeResponse 3 "rid-1" (.obj [])]

/-! ## Theorems -/

/-- Claim C2: `triggerInvocation(name, params, context, callerRes)`
returns true iff a next connection is held and no invocation is active;
on success it installs the freshly generated request id, the function
name and the invoke connection, writes the invocation payload to the
held next connection and clears `nextConnection`; on failure it returns
false with no write and no state change.  The id produced by
`randomUUID()` is modelled as the oracle input `freshRequestId`. -/
theorem triggerInvocation_success_iff_and_frame (s : BridgeState)
    (functionName : String) (params context : JSValue) (conn : Nat)
    (freshRequestId : String) (now : Int) :
    ((triggerInvocation s functionName params context conn freshRequestId now).2.1 = true
       ↔ s.nextConnection.isSome = true ∧ s.invokeConnection = none)
    ∧ (∀ nc, s.nextConnection = some nc → s.invokeConnection = none →
        triggerInvocation s functionName params context conn freshRequestId now
          = ({ s with currentRequestId := some freshRequestId,
                      currentFunctionName := some functionName,
                      invokeConnection := some ⟨conn, now⟩,
                      nextConnection := none },
             true,
             [⟨nc.conn, 200,
               contentTypeJson ++
                 [("Lambda-Runtime-Aws-Request-Id", freshRequestId),
                  ("Lambda-Runtime-Deadline-Ms", toString (now + 300000)),
                  ("Lambda-Runtime-Invoked-Function-Arn",
                    invokedFunctionArn functionName)],
               jsonStringify (.obj [("functionName", .str functionName),
                 ("params", params), ("context", context)])⟩]))
    ∧ ((triggerInvocation s functionName params context conn freshRequestId now).2.1 = false →
        triggerInvocation s functionName params context conn freshRequestId now
          = (s, false, [])) := by
  rcases hn : s.nextConnection with _ | nc <;>
    rcases hi : s.invokeConnection with _ | ic <;>
      simp [triggerInvocation, hn, hi]

/-- Witness for C2: in a ready bridge the trigger succeeds. -/
theorem triggerInvocation_success_iff_and_frame_witness :
    (triggerInvocation ⟨some ⟨3, 11⟩, none, none, none, true⟩ "echo" (.obj [])
      (.obj []) 7 "rid-1" 50).2.1 = true :=
  (triggerInvocation_success_iff_and_frame ⟨some ⟨3, 11⟩, none, none, none, true⟩
    "echo" (.obj []) (.obj []) 7 "rid-1" 50).1.mpr ⟨rfl, rfl⟩

/-- Claim C4: a `holdNextConnection` while another next connection is
already held completes the older one with 503 and the body
`\x7b"error":"Another runtime connected"\x7d`, and the new connection
takes the held slot. -/
theorem holdNextConnection_preempts (s : BridgeState) (old : HeldConnection)
    (conn : Nat) (now : Int) (h : s.nextConnection = some old) :
    holdNextConnection s conn now
      = ({ s with nextConnection := some ⟨conn, now⟩, runtimeConnectedOnce := true },
         [⟨old.conn, 503, contentTypeJson,
           "\x7b\"error\":\"Another runtime connected\"\x7d"⟩]) := by
  simp only [holdNextConnection, h]
  rfl

/-- Witness for C4: concrete preemption of connection 3 by connection 9. -/
theorem holdNextConnection_preempts_witness :
    holdNextConnection ⟨some ⟨3, 11⟩, none, none, none, true⟩ 9 60
      = (⟨some ⟨9, 60⟩, none, none, none, true⟩,
         [⟨3, 503, contentTypeJson,
           "\x7b\"error\":\"Another runtime connected\"\x7d"⟩]) :=
  holdNextConnection_preempts ⟨some ⟨3, 11⟩, none, none, none, true⟩ ⟨3, 11⟩ 9 60 rfl

/-- Claim C10: with an invocation active, `completeWithSuccess` on the
matching request id returns true, writes 200 with the JSON serialisation
of the result — the literal `\x7b\x7d` when the result is null or
undefined — to the held caller response, and resets `invokeConnection`,
`currentRequestId` and `currentFunctionName` to null. -/
theorem completeWithSuccess_matching (s : BridgeState) (ic : HeldConnection)
    (requestId : String) (result : JSValue)
    (hic : s.invokeConnection = some ic)
    (hrid : s.currentRequestId = some requestId) :
    completeWithSuccess s requestId result
      = ({ s with invokeConnection := none, currentRequestId := none,
                  currentFunctionName := none },
         true,
         [⟨ic.conn, 200, contentTypeJson,
           jsonStringify (nullishCoalesceEmptyObj result)⟩])
    ∧ (result = .null ∨ result = .undefined →
        jsonStringify (nullishCoalesceEmptyObj result) = "\x7b\x7d") := by
  constructor
  · simp [completeWithSuccess, hic, hrid]
  · rintro (rfl | rfl) <;> rfl

/-- Witness for C10: a concrete matching completion with a null result
is written as the literal empty JSON object. -/
theorem completeWithSuccess_matching_witness :
    completeWithSuccess ⟨none, some ⟨7, 50⟩, some "rid-1", some "echo", true⟩
        "rid-1" JSValue.null
      = (⟨none, none, none, none, true⟩, true,
         [⟨7, 200, contentTypeJson, "\x7b\x7d"⟩]) := by
  have h := completeWithSuccess_matching
    ⟨none, some ⟨7, 50⟩, some "rid-1", some "echo", true⟩ ⟨7, 50⟩ "rid-1"
    JSValue.null rfl rfl
  exact h.1

/-- Claim C3: a `completeWithSuccess` or `completeWithError` whose
request id differs from `currentRequestId` returns false, performs no
write, leaves the bridge state unchanged, and the corresponding dev
server handler answers the runtime's POST with 400 Bad Request; the
held caller response receives nothing. -/
theorem completeMismatch_rejected (s : BridgeState) (requestId : String)
    (h : s.currentRequestId ≠ some requestId)
    (resConn : Nat) (body : JSValue) (error : RuntimeError) :
    completeWithSuccess s requestId body = (s, false, [])
    ∧ completeWithError s requestId error = (s, false, [])
    ∧ handleInvocationResponse s resConn requestId body
        = (s, [⟨resConn, 400, contentTypeJson,
            badRequestBody "No matching invocation or request ID mismatch"⟩])
    ∧ handleInvocationError s resConn requestId error
        = (s, [⟨resConn, 400, contentTypeJson,
            badRequestBody "No matching invocation or request ID mismatch"⟩]) := by
  have h1 : completeWithSuccess s requestId body = (s, false, []) := by
    simp [completeWithSuccess, h]
  have h2 : completeWithError s requestId error = (s, false, []) := by
    simp [completeWithError, h]
  refine ⟨h1, h2, ?_, ?_⟩
  · simp [handleInvocationResponse, h1]
  · simp [handleInvocationError, h2]

/-- Witness for C3: a mismatching id against an active invocation with
current id rid-1 is rejected without a state change. -/
theorem completeMismatch_rejected_witness :
    completeWithSuccess ⟨none, some ⟨7, 50⟩, some "rid-1", some "echo", true⟩
        "rid-2" (.obj [])
      = (⟨none, some ⟨7, 50⟩, some "rid-1", some "echo", true⟩, false, []) :=
  (completeMismatch_rejected ⟨none, some ⟨7, 50⟩, some "rid-1", some "echo", true⟩
    "rid-2" (by decide) 4 (.obj []) ⟨"m", "t", []⟩).1

/-- Claim C5 (code bug): `handleRequest` has no route for the path "/";
a GET of "/" falls through to the 404 branch and is answered with
`\x7b"error":"Not found"\x7d`, not with 200 `\x7b"ok": true\x7d` as the
spec and the repository's own integration test
(`tests/integration/cli/dev-server.test.ts`) require. -/
theorem routeRequest_get_root_not_found :
    routeRequest "GET" "/" = RouteAction.notFound
    ∧ handleRequestDirectWrite "GET" "/" 0
        = some ⟨0, 404, contentTypeJson, "\x7b\"error\":\"Not found\"\x7d"⟩ := by
  exact ⟨rfl, rfl⟩

/-- Claim C6 (code bug): with `AWS_LAMBDA_RUNTIME_API` unset the
constructor defaults `runtimeApi` to 127.0.0.1:9001, not to the
127.0.0.1:14113 asserted by the spec and by `src/utils/env.test.ts`. -/
theorem runtimeApi_default_eval :
    (mkEnvironmentManager emptyProcessEnv).runtimeApi = "127.0.0.1:9001"
    ∧ (mkEnvironmentManager emptyProcessEnv).runtimeApi ≠ "127.0.0.1:14113" := by
  exact ⟨rfl, by decide⟩

/-- Claim C7 (counterexample): for an `Error` instance whose `stack` is
the usual string — not an array of strings — the source does not produce
the empty array; it splits the string on the literal sequence "/n" and
keeps the (non-empty) result. -/
theorem formatRuntimeError_error_stack_counterexample :
    (formatRuntimeError (.errObj "boom" "Error" (some "at main"))).stackTrace
      = [JSValue.str "at main"]
    ∧ (formatRuntimeError (.errObj "boom" "Error" (some "at main"))).stackTrace
      ≠ [] := by
  refine ⟨rfl, ?_⟩
  intro h
  rw [show (formatRuntimeError (.errObj "boom" "Error" (some "at main"))).stackTrace
      = [JSValue.str "at main"] from rfl] at h
  exact List.cons_ne_nil _ _ h

/-- Claim C7 (amended): every thrown value is normalised to a
`RuntimeErrorValue` with all three fields present; for an `Error`
instance the stack trace is the stack string split on the literal
sequence "/n" (empty when the stack is absent) and message/name are
taken verbatim; for every non-`Error` value the stack trace equals the
`stack` property exactly when it is an array whose first element is a
string and is empty otherwise; a duck-typed object without a string
`message` (and any array) falls back to "An unknown error occurred",
and every value that is neither an `Error` instance nor an object with
a string `name` falls back to "UnknownError". -/
theorem formatRuntimeError_amended (v : JSValue) :
    (∀ message name stack, v = .errObj message name stack →
        formatRuntimeError v
          = ⟨message, name,
             match stack with
             | some s => (jsSplitOn s "/n").map JSValue.str
             | none => []⟩)
    ∧ ((∀ message name stack, v ≠ .errObj message name stack) →
        (formatRuntimeError v).stackTrace
          = match getProp v "stack" with
            | some (.arr (JSValue.str s :: rest)) => JSValue.str s :: rest
            | _ => [])
    ∧ (((∃ fs, v = .obj fs) ∨ (∃ xs, v = .arr xs)) →
        (∀ m, getProp v "message" ≠ some (.str m)) →
        (formatRuntimeError v).errorMessage = "An unknown error occurred")
    ∧ ((∀ message name stack, v ≠ .errObj message name stack) →
        (∀ n, getProp v "name" ≠ some (.str n)) →
        (formatRuntimeError v).errorType = "UnknownError") := by
  refine ⟨?_, ?_, ?_, ?_⟩
  · rintro message name stack rfl
    cases stack <;> rfl
  · intro hne
    cases v with
    | errObj m n st => exact absurd rfl (hne m n st)
    | obj fs =>
        cases hst : lookupField fs "stack" with
        | none => simp [formatRuntimeError, getProp, hst]
        | some w =>
            cases w with
            | arr xs =>
                cases xs with
                | nil => simp [formatRuntimeError, getProp, hst]
                | cons x rest =>
                    cases x <;> simp [formatRuntimeError, getProp, hst]
            | null => simp [formatRuntimeError, getProp, hst]
            | undefined => simp [formatRuntimeError, getProp, hst]
            | bool b => simp [formatRuntimeError, getProp, hst]
            | num n => simp [formatRuntimeError, getProp, hst]
            | str s => simp [formatRuntimeError, getProp, hst]
            | obj gs => simp [formatRuntimeError, getProp, hst]
            | errObj m n st => simp [formatRuntimeError, getProp, hst]
    | null => rfl
    | undefined => rfl
    | bool b => rfl
    | num n => rfl
    | str s => rfl
    | arr xs => rfl
  · rintro hshape hmsg
    rcases hshape with ⟨fs, rfl⟩ | ⟨xs, rfl⟩
    · cases hm : lookupField fs "message" with
      | none => simp [formatRuntimeError, hm]
      | some w =>
          cases w with
          | str m => exact absurd (by simpa [getProp] using hm) (hmsg m)
          | null => simp [formatRuntimeError, hm]
          | undefined => simp [formatRuntimeError, hm]
          | bool b => simp [formatRuntimeError, hm]
          | num n => simp [formatRuntimeError, hm]
          | arr ys => simp [formatRuntimeError, hm]
          | obj gs => simp [formatRuntimeError, hm]
          | errObj m n st => simp [formatRuntimeError, hm]
    · rfl
  · intro hne hname
    cases v with
    | errObj m n st => exact absurd rfl (hne m n st)
    | obj fs =>
        cases hm : lookupField fs "name" with
        | none => simp [formatRuntimeError, hm]
        | some w =>
            cases w with
            | str n => exact absurd (by simpa [getProp] using hm) (hname n)
            | null => simp [formatRuntimeError, hm]
            | undefined => simp [formatRuntimeError, hm]
            | bool b => simp [formatRuntimeError, hm]
            | num n => simp [formatRuntimeError, hm]
            | arr ys => simp [formatRuntimeError, hm]
            | obj gs => simp [formatRuntimeError, hm]
            | errObj m n st => simp [formatRuntimeError, hm]
    | null => rfl
    | undefined => rfl
    | bool b => rfl
    | num n => rfl
    | str s => rfl
    | arr xs => rfl

/-- Witness for the amended C7: a duck-typed object whose `stack` array
starts with a string keeps the whole (heterogeneous) array. -/
theorem formatRuntimeError_amended_witness :
    (formatRuntimeError (.obj [("stack", .arr [.str "a", .num 1])])).stackTrace
      = [JSValue.str "a", JSValue.num 1] := by
  have h := (formatRuntimeError_amended
    (.obj [("stack", .arr [.str "a", .num 1])])).2.1
    (fun message name stack hcon => JSValue.noConfusion hcon)
  rw [h]
  rfl

/-- Claim C9 (counterexample): a registered function whose
`parametersSchema` rejects the given params is still executed; `execute`
returns the handler result rather than reporting a validation error. -/
theorem registryExecute_ignores_schema_counterexample :
    registryExecute
        (registryRegister [] "f" (fun _ _ => .ok (.str "handler-ran"))
          ⟨some ⟨true, .obj [], fun _ => false⟩, none⟩)
        "f" (.obj []) (.obj [])
      = .ok (.str "handler-ran")
    ∧ (⟨true, .obj [], fun _ => false⟩ : ZodSchema).validate (.obj []) = false :=
  ⟨rfl, rfl⟩

/-- Helper: `Map.set` followed by `Map.get` at the same key yields the
value just stored. -/
theorem mapGet_mapSet_self {α : Type} (r : List (String × α)) (k : String) (v : α) :
    mapGet (mapSet r k v) k = some v := by
  induction r with
  | nil => simp [mapSet, mapGet]
  | cons hd tl ih =>
      rcases hd with ⟨k1, v1⟩
      by_cases h : k1 = k <;> simp [mapSet, mapGet, h, ih]

/-- Claim C9 (amended): `execute(name, params, context)` looks the
manifest up and invokes its handler with `(context, params)` directly;
no parameter validation happens, whatever `parametersSchema` the
registered config carries. -/
theorem registryExecute_runs_handler_directly (r : FunctionRegistryState)
    (name : String) (handler : HandlerFn) (config : FunctionConfiguration)
    (params context : JSValue) :
    registryExecute (registryRegister r name handler config) name params context
      = match handler context params with
        | .ok v => .ok v
        | .thrown e => .thrown e := by
  simp [registryExecute, registryRegister, mapGet_mapSet_self]

/-- Helper: `Map.set` never produces an empty map. -/
theorem mapSet_ne_nil {α : Type} (r : List (String × α)) (k : String) (v : α) :
    mapSet r k v ≠ [] := by
  cases r with
  | nil => simp [mapSet]
  | cons hd tl =>
      rcases hd with ⟨k1, v1⟩
      by_cases h : k1 = k <;> simp [mapSet, h]

/-- Helper: the pair just stored is a member of the updated map. -/
theorem mapSet_self_mem {α : Type} (r : List (String × α)) (k : String) (v : α) :
    (k, v) ∈ mapSet r k v := by
  induction r with
  | nil => simp [mapSet]
  | cons hd tl ih =>
      rcases hd with ⟨k1, v1⟩
      by_cases h : k1 = k <;> simp [mapSet, h, ih]

/-- Helper: `Map.set` preserves every existing key. -/
theorem mapSet_keys_sub {α : Type} (r : List (String × α)) (k : String) (v : α)
    (p : String × α) (hp : p ∈ r) : ∃ q ∈ mapSet r k v, q.1 = p.1 := by
  induction r with
  | nil => cases hp
  | cons hd tl ih =>
      rcases hd with ⟨k1, v1⟩
      by_cases h : k1 = k
      · rcases List.mem_cons.mp hp with heq | htl
        · exact ⟨(k1, v), by simp [mapSet, h], by rw [heq]⟩
        · exact ⟨p, by simp [mapSet, h]; right; exact htl, rfl⟩
      · rcases List.mem_cons.mp hp with heq | htl
        · exact ⟨(k1, v1), by simp [mapSet, h], by rw [heq]⟩
        · rcases ih htl with ⟨q, hq, hq1⟩
          exact ⟨q, by simp [mapSet, h]; right; exact hq, hq1⟩

/-- Helper: if the map after a `Map.set` has exactly one entry, every
key already present equals the stored key. -/
theorem mapSet_length_one_keys {α : Type} (r : List (String × α)) (k : String)
    (v : α) (h : (mapSet r k v).length = 1) : ∀ p ∈ r, p.1 = k := by
  induction r with
  | nil => intro p hp; cases hp
  | cons hd tl ih =>
      rcases hd with ⟨k1, v1⟩
      by_cases hk : k1 = k
      · intro p hp
        have hlen : tl.length = 0 := by simpa [mapSet, hk] using h
        have htl : tl = [] := List.length_eq_zero.mp hlen
        subst htl
        rcases List.mem_cons.mp hp with heq | h2
        · rw [heq]; exact hk
        · cases h2
      · exfalso
        have hlen : (mapSet tl k v).length = 0 := by simpa [mapSet, hk] using h
        exact mapSet_ne_nil tl k v (List.length_eq_zero.mp hlen)

/-- Helper: pointwise description of `writeManifestToDisk`. -/
theorem writeManifestToDisk_at (m : FunctionManifest) (dir : ManifestDir)
    (b : Bool) (f : String) :
    writeManifestToDisk m dir b f
      = if f = manifestFileName m.name then some (buildPersistedFunctionManifest m)
        else if b then none else dir f := by
  unfold writeManifestToDisk
  cases b <;> simp

/-- Helper: the directory produced by `defineFn`. -/
theorem defineFn_dir (st : IntrospectState) (name : String) (h : HandlerFn)
    (cfg : FunctionConfiguration) :
    (defineFn st name h cfg).manifestsDir
      = writeManifestToDisk ⟨name, h, cfg⟩ st.manifestsDir
          (registrySize (registryRegister st.registry name h cfg) == 1) := rfl

/-- Helper: the registry produced by `defineFn`. -/
theorem defineFn_registry (st : IntrospectState) (name : String) (h : HandlerFn)
    (cfg : FunctionConfiguration) :
    (defineFn st name h cfg).registry = registryRegister st.registry name h cfg := rfl

/-- Helper: `defineFn` keeps the directory dominated by registry keys. -/
theorem defineFn_preserves_domOk (st : IntrospectState) (name : String)
    (h : HandlerFn) (cfg : FunctionConfiguration) (hdom : introspectDomOk st) :
    introspectDomOk (defineFn st name h cfg) := by
  intro f hf
  rw [defineFn_dir, writeManifestToDisk_at] at hf
  rw [defineFn_registry]
  by_cases hfe : f = manifestFileName name
  · exact ⟨(name, ⟨name, h, cfg⟩), mapSet_self_mem _ _ _, hfe⟩
  · rw [if_neg hfe] at hf
    cases hfirst : (registrySize (registryRegister st.registry name h cfg) == 1) with
    | true => rw [hfirst] at hf; simp at hf
    | false =>
        rw [hfirst] at hf
        simp only [if_neg Bool.false_ne_true] at hf
        rcases hdom f hf with ⟨p, hp, hfp⟩
        rcases mapSet_keys_sub st.registry name ⟨name, h, cfg⟩ p hp with ⟨q, hq, hq1⟩
        exact ⟨q, hq, by rw [hfp, hq1]⟩

/-- Helper: `defineFn` preserves the introspect invariant. -/
theorem defineFn_preserves_inv (st : IntrospectState) (name : String)
    (h : HandlerFn) (cfg : FunctionConfiguration) (hinv : introspectInv st) :
    introspectInv (defineFn st name h cfg) := by
  refine ⟨?_, defineFn_preserves_domOk st name h cfg hinv.2⟩
  rw [defineFn_registry]
  exact mapSet_ne_nil _ _ _

/-- Helper: a whole run preserves the introspect invariant. -/
theorem introspectRun_preserves_inv (calls : List DefineCall) :
    ∀ st, introspectInv st → introspectInv (introspectRun st calls) := by
  induction calls with
  | nil => intro st h; exact h
  | cons c cs ih =>
      intro st h
      exact ih _ (defineFn_preserves_inv st c.name c.handler c.config h)

/-- Helper: the state right after the first `defineFn` of a run
satisfies the invariant. -/
theorem first_call_inv (d0 : ManifestDir) (c : DefineCall) :
    introspectInv (defineFn (startIntrospect d0) c.name c.handler c.config) := by
  constructor
  · rw [defineFn_registry]
    exact mapSet_ne_nil _ _ _
  · intro f hf
    rw [defineFn_dir, writeManifestToDisk_at] at hf
    rw [defineFn_registry]
    by_cases hfe : f = manifestFileName c.name
    · exact ⟨(c.name, ⟨c.name, c.handler, c.config⟩), mapSet_self_mem _ _ _, hfe⟩
    · rw [if_neg hfe] at hf
      simp [startIntrospect, registryRegister, registrySize, mapSet] at hf

/-- Helper: after a non-empty run from process start the invariant holds. -/
theorem run_nonempty_inv (d0 : ManifestDir) (calls : List DefineCall)
    (hne : calls ≠ []) : introspectInv (introspectRun (startIntrospect d0) calls) := by
  cases calls with
  | nil => exact absurd rfl hne
  | cons c cs =>
      have h0 := first_call_inv d0 c
      exact introspectRun_preserves_inv cs _ h0

/-- Helper: a `defineFn` from an invariant state adds exactly its own
file and leaves every other file of the directory unchanged. -/
theorem defineFn_frame (st : IntrospectState) (hinv : introspectInv st)
    (name : String) (h : HandlerFn) (cfg : FunctionConfiguration) :
    (∀ f, f ≠ manifestFileName name →
        (defineFn st name h cfg).manifestsDir f = st.manifestsDir f)
    ∧ (defineFn st name h cfg).manifestsDir (manifestFileName name)
        = some (buildPersistedFunctionManifest ⟨name, h, cfg⟩) := by
  constructor
  · intro f hf
    rw [defineFn_dir, writeManifestToDisk_at, if_neg hf]
    cases hfirst : (registrySize (registryRegister st.registry name h cfg) == 1) with
    | false => simp
    | true =>
        simp only [if_pos rfl, if_true]
        cases hd : st.manifestsDir f with
        | none => rfl
        | some p0 =>
            exfalso
            have hsome : (st.manifestsDir f).isSome := by rw [hd]; rfl
            rcases hinv.2 f hsome with ⟨p, hp, hfp⟩
            have hlen : (mapSet st.registry name (⟨name, h, cfg⟩ : FunctionManifest)).length = 1 := by
              have hcopy := hfirst
              simp [registrySize, registryRegister] at hcopy
              exact hcopy
            have hkey := mapSet_length_one_keys st.registry name ⟨name, h, cfg⟩ hlen p hp
            exact hf (by rw [hfp, hkey])
  · rw [defineFn_dir, writeManifestToDisk_at, if_pos rfl]

/-- Claim C8: during introspect, the first manifest write of a process
run (registry size reaching 1) clears and recreates `manifestsDir` so
that it afterwards contains exactly its own file, and every subsequent
`defineFn` write of the same run adds or overwrites only its own
`name.json`, leaving every other file of the directory unchanged. -/
theorem introspect_first_write_clears_then_adds (d0 : ManifestDir)
    (calls : List DefineCall) (c : DefineCall) (hne : calls ≠ []) :
    ((introspectRun (startIntrospect d0) [c]).manifestsDir
       = fun f => if f = manifestFileName c.name
                  then some (buildPersistedFunctionManifest ⟨c.name, c.handler, c.config⟩)
                  else none)
    ∧ (∀ f, f ≠ manifestFileName c.name →
        (defineFn (introspectRun (startIntrospect d0) calls)
            c.name c.handler c.config).manifestsDir f
          = (introspectRun (startIntrospect d0) calls).manifestsDir f)
    ∧ (defineFn (introspectRun (startIntrospect d0) calls)
          c.name c.handler c.config).manifestsDir (manifestFileName c.name)
        = some (buildPersistedFunctionManifest ⟨c.name, c.handler, c.config⟩) := by
  have hinv := run_nonempty_inv d0 calls hne
  have hframe := defineFn_frame _ hinv c.name c.handler c.config
  refine ⟨?_, hframe.1, hframe.2⟩
  funext f
  show (defineFn (startIntrospect d0) c.name c.handler c.config).manifestsDir f = _
  rw [defineFn_dir, writeManifestToDisk_at]
  by_cases hfe : f = manifestFileName c.name
  · rw [if_pos hfe, if_pos hfe]
  · rw [if_neg hfe, if_neg hfe]
    simp [startIntrospect, registryRegister, registrySize, mapSet]

/-- Witness for C8: with a stale file on disk and "alpha" already
registered, defining "beta" leaves the (already wiped) slot of the stale
file untouched. -/
theorem introspect_first_write_clears_then_adds_witness :
    (defineFn (introspectRun (startIntrospect staleDir) [sampleCall "alpha"])
        "beta" sampleHandler {}).manifestsDir "stale.json"
      = (introspectRun (startIntrospect staleDir) [sampleCall "alpha"]).manifestsDir
          "stale.json" :=
  (introspect_first_write_clears_then_adds staleDir [sampleCall "alpha"]
    (sampleCall "beta") (by simp)).2.1 "stale.json" (by decide)

/-- Helper: a failed `completeWithSuccess` is a no-op that returns
`(s, false, [])`. -/
theorem completeWithSuccess_false_state (s : BridgeState) (requestId : String)
    (result : JSValue) (h : (completeWithSuccess s requestId result).2.1 = false) :
    completeWithSuccess s requestId result = (s, false, []) := by
  by_cases hr : s.currentRequestId ≠ some requestId
  · simp [completeWithSuccess, hr]
  · cases hic : s.invokeConnection with
    | none => simp [completeWithSuccess, hr, hic]
    | some ic => simp [completeWithSuccess, hr, hic] at h

/-- Helper: a successful `completeWithSuccess` leaves no held invoke
connection behind. -/
theorem completeWithSuccess_true_invoke_none (s : BridgeState) (requestId : String)
    (result : JSValue) (h : (completeWithSuccess s requestId result).2.1 = true) :
    (completeWithSuccess s requestId result).1.invokeConnection = none := by
  by_cases hr : s.currentRequestId ≠ some requestId
  · simp [completeWithSuccess, hr] at h
  · cases hic : s.invokeConnection with
    | none => simp [completeWithSuccess, hr, hic] at h
    | some ic => simp [completeWithSuccess, hr, hic]

/-- Helper: a failed `completeWithError` is a no-op that returns
`(s, false, [])`. -/
theorem completeWithError_false_state (s : BridgeState) (requestId : String)
    (error : RuntimeError) (h : (completeWithError s requestId error).2.1 = false) :
    completeWithError s requestId error = (s, false, []) := by
  by_cases hr : s.currentRequestId ≠ some requestId
  · simp [completeWithError, hr]
  · cases hic : s.invokeConnection with
    | none => simp [completeWithError, hr, hic]
    | some ic => simp [completeWithError, hr, hic] at h

/-- Helper: a successful `completeWithError` leaves no held invoke
connection behind. -/
theorem completeWithError_true_invoke_none (s : BridgeState) (requestId : String)
    (error : RuntimeError) (h : (completeWithError s requestId error).2.1 = true) :
    (completeWithError s requestId error).1.invokeConnection = none := by
  by_cases hr : s.currentRequestId ≠ some requestId
  · simp [completeWithError, hr] at h
  · cases hic : s.invokeConnection with
    | none => simp [completeWithError, hr, hic] at h
    | some ic => simp [completeWithError, hr, hic]

/-- Helper: every dev-server step preserves the session invariant. -/
theorem devStep_preserves (store : String → Option PersistedFunctionManifest)
    (s : DevState) (e : DevEvent) (h : devInvariant s) :
    devInvariant (devStep store s e).1 := by
  obtain ⟨hacc, hiff⟩ := h
  cases e with
  | runtimeNext conn now => exact ⟨hacc, hiff⟩
  | nextConnectionClosed => exact ⟨hacc, hiff⟩
  | invokeConnectionClosed =>
      cases hic : s.bridge.invokeConnection with
      | none =>
          simp only [devStep, hic]
          exact ⟨hacc, hiff⟩
      | some ic =>
          simp only [devStep, hic]
          constructor
          · intro sid
            have hs := hacc sid
            simp [releaseActiveSession, List.count_append]
            omega
          · simp [releaseActiveSession]
  | runtimeResponse conn requestId body =>
      cases hok : (completeWithSuccess s.bridge requestId body).2.1 with
      | false =>
          have hst := completeWithSuccess_false_state s.bridge requestId body hok
          have h1 : (completeWithSuccess s.bridge requestId body).1 = s.bridge := by
            rw [hst]
          simp only [devStep, hok, Bool.false_eq_true, if_false, h1]
          exact ⟨hacc, hiff⟩
      | true =>
          have hnone := completeWithSuccess_true_invoke_none s.bridge requestId body hok
          simp only [devStep, hok, if_true]
          constructor
          · intro sid
            have hs := hacc sid
            simp [releaseActiveSession, List.count_append]
            omega
          · simp [releaseActiveSession, hnone]
  | runtimeErrorPost conn requestId error =>
      cases hok : (completeWithError s.bridge requestId error).2.1 with
      | false =>
          have hst := completeWithError_false_state s.bridge requestId error hok
          have h1 : (completeWithError s.bridge requestId error).1 = s.bridge := by
            rw [hst]
          simp only [devStep, hok, Bool.false_eq_true, if_false, h1]
          exact ⟨hacc, hiff⟩
      | true =>
          have hnone := completeWithError_true_invoke_none s.bridge requestId error hok
          simp only [devStep, hok, if_true]
          constructor
          · intro sid
            have hs := hacc sid
            simp [releaseActiveSession, List.count_append]
            omega
          · simp [releaseActiveSession, hnone]
  | functionInvoke conn functionName params contextBody sessionResult
      freshRequestId freshContextId now =>
    cases hm : store functionName with
    | none =>
        simp only [devStep, hm]
        exact ⟨hacc, hiff⟩
    | some mf =>
        cases sessionResult with
        | error msg =>
            simp only [devStep, hm]
            exact ⟨hacc, hiff⟩
        | ok sess =>
            cases hn : s.bridge.nextConnection with
            | none =>
                simp only [devStep, hm, triggerInvocation, hn]
                constructor
                · intro sid
                  have hs := hacc sid
                  simp [List.count_append]
                  omega
                · exact hiff
            | some nc =>
                cases hi : s.bridge.invokeConnection with
                | some ic =>
                    simp only [devStep, hm, triggerInvocation, hn, hi]
                    constructor
                    · intro sid
                      have hs := hacc sid
                      simp [List.count_append]
                      omega
                    · exact hiff
                | none =>
                    have hact : s.activeSession = none := by
                      cases ha : s.activeSession with
                      | none => rfl
                      | some a =>
                          exfalso
                          have hsome := hiff.mp (by rw [ha]; rfl)
                          rw [hi] at hsome
                          simp at hsome
                    simp only [devStep, hm, triggerInvocation, hn, hi]
                    constructor
                    · intro sid
                      have hs := hacc sid
                      rw [hact] at hs
                      simp [List.count_append] at hs ⊢
                      omega
                    · simp

/-- Helper: the invariant is preserved along any event trace. -/
theorem devRun_preserves (store : String → Option PersistedFunctionManifest)
    (events : List DevEvent) :
    ∀ s, devInvariant s → devInvariant (devRun store s events) := by
  induction events with
  | nil => intro s h; exact h
  | cons e es ih =>
      intro s h
      exact ih _ (devStep_preserves store s e h)

/-- Claim C1: on every trace of dev-server events, each browser session
id created on the external invoke path is accounted for by exactly one
`closeSession` release, except for the session of the invocation still
in flight; in particular once no invocation is active every created
session has been released exactly as often as it was created.  This
covers handler success and error completions, request-id mismatches
(which release nothing and change nothing), trigger failure (immediate
release), and premature disconnect of the caller connection. -/
theorem session_release_accounting (store : String → Option PersistedFunctionManifest)
    (events : List DevEvent) :
    (∀ sid, (devRun store initialDevState events).createdSessions.count sid
        = (devRun store initialDevState events).releasedSessions.count sid
          + (devRun store initialDevState events).activeSession.toList.count sid)
    ∧ ((devRun store initialDevState events).activeSession = none →
        ∀ sid, (devRun store initialDevState events).createdSessions.count sid
          = (devRun store initialDevState events).releasedSessions.count sid) := by
  have h0 : devInvariant initialDevState := by
    constructor
    · intro sid; rfl
    · simp [initialDevState, initialBridge]
  have hinv := devRun_preserves store events initialDevState h0
  refine ⟨hinv.1, ?_⟩
  intro hnone sid
  have hs := hinv.1 sid
  rw [hnone] at hs
  simpa using hs

/-- Witness for C1: on the happy-path trace the one session created for
"echo" is released exactly once after the runtime posts its response. -/
theorem session_release_accounting_witness :
    (devRun echoStore initialDevState happyTrace).createdSessions.count "sess-1"
      = (devRun echoStore initialDevState happyTrace).releasedSessions.count "sess-1" :=
  (session_release_accounting echoStore happyTrace).2 rfl "sess-1"
